import Mathlib

/-!
Verification of the time-handling, segment-extraction and GUI state logic of
the RSA-InferenciaGPD event-extraction scripts
(`scripts/gui/mseed_event_extractor.py`, `scripts/gui/test_gui.py`,
`scripts/utils/visualizar_evento.py`).

Python strings are embedded as `List Char`; Python `int` values as `ℤ`;
absolute instants and durations as integer counts of microseconds (the
resolution of Python `datetime`); fallible operations return `Except`/`Option`.
-/

/-- Python strings, embedded as lists of characters. -/

abbrev Str := List Char

/-- Model of Python `str.split(sep)` for a one-character separator:
splitting the empty string gives `[""]`, and every occurrence of the
separator starts a new chunk. -/

def pySplit (sep : Char) : Str → List Str
  | [] => [[]]
  | c :: rest =>
    if c = sep then [] :: pySplit sep rest
    else
      match pySplit sep rest with
      | [] => [[c]]
      | g :: gs => (c :: g) :: gs

/-- ASCII decimal digit test (`'0'`–`'9'`). -/

def isDig (c : Char) : Bool := 48 ≤ c.toNat ∧ c.toNat ≤ 57

/-- Numeric value of a digit character. -/

def digVal (c : Char) : ℕ := c.toNat - 48

/-- Value of a most-significant-digit-first digit string. -/

def digitsVal (s : Str) : ℕ := s.foldl (fun a c => 10 * a + digVal c) 0

/-- Python whitespace characters stripped by `int(...)` (ASCII subset). -/

def isPyWS (c : Char) : Bool :=
  c = ' ' ∨ c = '\t' ∨ c = '\n' ∨ c = '\r' ∨ c = '\x0b' ∨ c = '\x0c'

/-- Strip leading and trailing whitespace, as Python `int(str)` does. -/

def stripWS (s : Str) : Str :=
  (((s.dropWhile isPyWS).reverse).dropWhile isPyWS).reverse

/-- No two consecutive underscore characters. -/

def noDoubleUS : Str → Bool
  | [] => true
  | [_] => true
  | a :: b :: rest => !(a = '_' ∧ b = '_') && noDoubleUS (b :: rest)

/-- Whether a character list is a valid unsigned Python integer literal body:
nonempty, made of digits and single `_` separators, starting and ending with
a digit and with no two consecutive underscores. -/

def pyDigitsOK (s : Str) : Bool :=
  s ≠ [] ∧ (∀ c ∈ s, isDig c ∨ c = '_') ∧ noDoubleUS s ∧
  isDig (s.headI) ∧ isDig (s.getLastD '0')

/-- Value of an unsigned integer-literal body, ignoring underscores. -/

def pyDigitsVal (s : Str) : ℕ := digitsVal (s.filter isDig)

/-- Model of Python `int(str)`: strips surrounding whitespace, allows an
optional sign, then an underscore-separated digit string; `none` models a
raised `ValueError`. (Non-ASCII digits and whitespace are out of scope.) -/

def pyInt (s : Str) : Option ℤ :=
  match stripWS s with
  | '+' :: r => if pyDigitsOK r then some (pyDigitsVal r) else none
  | '-' :: r => if pyDigitsOK r then some (-(pyDigitsVal r : ℤ)) else none
  | r => if pyDigitsOK r then some (pyDigitsVal r) else none

/-- Whether a chunk matches CPython's `strptime` field regex for `%H`
(`2[0-3]|[0-1]\d|\d`): one digit, or two digits with value at most 23. -/

def okFieldH (f : Str) : Bool :=
  (∀ c ∈ f, isDig c) ∧ (f.length = 1 ∨ (f.length = 2 ∧ digitsVal f ≤ 23))

/-- Whether a chunk matches CPython's field regex for `%M`
(`[0-5]\d|\d`): one digit, or two digits with value at most 59. -/

def okFieldM (f : Str) : Bool :=
  (∀ c ∈ f, isDig c) ∧ (f.length = 1 ∨ (f.length = 2 ∧ digitsVal f ≤ 59))

/-- Whether a chunk matches CPython's field regex for `%S`
(`6[0-1]|[0-5]\d|\d`): one digit, or two digits with value at most 61. -/

def okFieldS (f : Str) : Bool :=
  (∀ c ∈ f, isDig c) ∧ (f.length = 1 ∨ (f.length = 2 ∧ digitsVal f ≤ 61))

/-- Model of `datetime.strptime(s, '%H:%M:%S').time()`: the string must be
three digit chunks separated by `:` matching the `%H`/`%M`/`%S` field
regexes, and the `datetime` constructor additionally rejects the leap-second
values 60 and 61 for the seconds field. Returns `(hour, minute, second)`. -/

def strptime_hms (s : Str) : Option (ℤ × ℤ × ℤ) :=
  match pySplit ':' s with
  | [hf, mf, sf] =>
    if okFieldH hf ∧ okFieldM mf ∧ okFieldS sf ∧ digitsVal sf ≤ 59 then
      some ((digitsVal hf : ℤ), (digitsVal mf : ℤ), (digitsVal sf : ℤ))
    else none
  | _ => none

/-- A Python `datetime.time` value. -/

structure PyTime where
  hour : ℤ
  minute : ℤ
  second : ℤ
  microsecond : ℤ
  deriving DecidableEq, Repr

/-- Range invariant enforced by the `datetime.time` constructor. -/

def PyTime.WF (t : PyTime) : Prop :=
  0 ≤ t.hour ∧ t.hour < 24 ∧ 0 ≤ t.minute ∧ t.minute < 60 ∧
  0 ≤ t.second ∧ t.second < 60 ∧ 0 ≤ t.microsecond ∧ t.microsecond < 1000000

instance (t : PyTime) : Decidable t.WF := by
  unfold PyTime.WF; infer_instance

/-- Model of the `datetime.time(h, m, s, us)` constructor: validates all
fields and raises `ValueError` (here `none`) out of range. -/

def mkPyTime (h m s us : ℤ) : Option PyTime :=
  if (PyTime.mk h m s us).WF then some ⟨h, m, s, us⟩ else none

/-- Error message raised by `TimeHandler.parse_time_with_ms`:
`f"Formato de hora inválido: {time_str}"`. -/

def invalidTimeMsg (ts : Str) : Str := "Formato de hora inválido: ".data ++ ts

/-- Embedding of `TimeHandler.parse_time_with_ms` (mseed_event_extractor.py
lines 21–32): if the string contains a comma it is split into a `%H:%M:%S`
part and a millisecond count parsed by `int(...)` and scaled by 1000 into the
microsecond field; otherwise the whole string is parsed as `%H:%M:%S`. Any
failure raises `ValueError` with a message containing the input. -/

def parse_time_with_ms (time_str : Str) : Except Str PyTime :=
  if ',' ∈ time_str then
    match pySplit ',' time_str with
    | [mainPart, msPart] =>
      match strptime_hms mainPart, pyInt msPart with
      | some (h, m, s), some n =>
        match mkPyTime h m s (n * 1000) with
        | some t => .ok t
        | none => .error (invalidTimeMsg time_str)
      | _, _ => .error (invalidTimeMsg time_str)
    | _ => .error (invalidTimeMsg time_str)
  else
    match strptime_hms time_str with
    | some (h, m, s) => .ok ⟨h, m, s, 0⟩
    | none => .error (invalidTimeMsg time_str)

/-- Decimal numeral of a natural number, as a character list. -/

def natStr (n : ℕ) : Str := (Nat.repr n).data

/-- Model of Python `f"{n:02d}"` for nonnegative `n`: the decimal numeral
zero-padded on the left to at least two characters. -/

def pad2 (n : ℤ) : Str :=
  let s := natStr n.toNat
  List.replicate (2 - s.length) '0' ++ s

/-- Model of Python `f"{n:03d}"` for nonnegative `n`: the decimal numeral
zero-padded on the left to at least three characters. -/

def pad3 (n : ℤ) : Str :=
  let s := natStr n.toNat
  List.replicate (3 - s.length) '0' ++ s

/-- A Python `datetime.datetime`, as a proleptic day number (any epoch;
day 0 is the epoch) plus time-of-day fields. -/

structure PyDatetime where
  day : ℤ
  hour : ℤ
  minute : ℤ
  second : ℤ
  microsecond : ℤ
  deriving DecidableEq, Repr

/-- Model of `dt.strftime('%H:%M:%S')`: each field zero-padded to two
digits. -/

def strftimeHMS (dt : PyDatetime) : Str :=
  pad2 dt.hour ++ ':' :: (pad2 dt.minute ++ ':' :: pad2 dt.second)

/-- Embedding of `TimeHandler.format_time_with_ms` (mseed_event_extractor.py
lines 34–37): `f"{dt.strftime('%H:%M:%S')},{int(dt.microsecond/1000):02d}"`.
The millisecond count is padded to only two digits. -/

def format_time_with_ms (dt : PyDatetime) : Str :=
  strftimeHMS dt ++ ',' :: pad2 (dt.microsecond / 1000)

/-- Embedding of the inline re-formatting in `previsualizar` (test_gui.py
line 109): `base_dt.strftime('%H:%M:%S') + f",{int(base_dt.microsecond/1000):03d}"`.
The millisecond count is padded to three digits. -/

def previsualizar_new_str (dt : PyDatetime) : Str :=
  strftimeHMS dt ++ ',' :: pad3 (dt.microsecond / 1000)

/-- Range invariant of the `datetime.datetime` constructor (time-of-day
fields; the day number is unbounded in this model, which ignores Python's
year-1..9999 `OverflowError`). -/

def PyDatetime.WF (dt : PyDatetime) : Prop :=
  0 ≤ dt.hour ∧ dt.hour < 24 ∧ 0 ≤ dt.minute ∧ dt.minute < 60 ∧
  0 ≤ dt.second ∧ dt.second < 60 ∧ 0 ≤ dt.microsecond ∧ dt.microsecond < 1000000

instance (dt : PyDatetime) : Decidable dt.WF := by
  unfold PyDatetime.WF; infer_instance

/-- Absolute instant of a naive datetime, in microseconds from the epoch. -/

def PyDatetime.toMicros (dt : PyDatetime) : ℤ :=
  (((dt.day * 24 + dt.hour) * 60 + dt.minute) * 60 + dt.second) * 1000000 +
    dt.microsecond

/-- Normalized datetime of an absolute microsecond count (Euclidean
division, so it is correct for instants before the epoch as well). -/

def PyDatetime.ofMicros (n : ℤ) : PyDatetime :=
  ⟨n / 1000000 / 60 / 60 / 24,
   n / 1000000 / 60 / 60 % 24,
   n / 1000000 / 60 % 60,
   n / 1000000 % 60,
   n % 1000000⟩

/-- Model of `datetime.combine(base_date, time_obj)`. -/

def datetimeCombine (base_date : ℤ) (t : PyTime) : PyDatetime :=
  ⟨base_date, t.hour, t.minute, t.second, t.microsecond⟩

/-- Model of `datetime + timedelta`, the timedelta given as an integer count
of microseconds (the resolution of `timedelta`): field-wise addition followed
by calendar normalization, which is the same as adding on absolute
instants. -/

def datetimeAdd (dt : PyDatetime) (deltaMicros : ℤ) : PyDatetime :=
  PyDatetime.ofMicros (dt.toMicros + deltaMicros)

/-- An obspy `UTCDateTime`, reduced to an absolute instant in microseconds
from the epoch. -/

structure UTC where
  micros : ℤ
  deriving DecidableEq, Repr

/-- Model of `UTCDateTime(naive_datetime)`: obspy interprets a naive
datetime as UTC, so the instant is the datetime's absolute instant. -/

def UTC.ofDatetime (dt : PyDatetime) : UTC := ⟨dt.toMicros⟩

/-- The `.date` of a `UTCDateTime`, as a day number. -/

def UTC.date (u : UTC) : ℤ := u.micros / 86400000000

/-- Embedding of `TimeHandler.create_utc_datetime` (mseed_event_extractor.py
lines 39–44): `base_dt = datetime.combine(base_date, time_obj) + shift_delta`
and the pair `(UTCDateTime(base_dt), base_dt)` is returned. The shift is the
`timedelta` in microseconds. -/

def create_utc_datetime (base_date : ℤ) (time_obj : PyTime)
    (shiftMicros : ℤ) : UTC × PyDatetime :=
  let base_dt := datetimeAdd (datetimeCombine base_date time_obj) shiftMicros
  (UTC.ofDatetime base_dt, base_dt)

/-- An obspy trace, reduced to its channel code and the absolute instants
(microseconds from the epoch) of its samples. Sample amplitudes play no role
in the verified properties and are omitted. -/

structure Trace where
  channel : Str
  times : List ℤ
  deriving DecidableEq, Repr

/-- An obspy stream: a list of traces. -/

abbrev ObsStream := List Trace

/-- Model of `Trace.slice(starttime, endtime)`: keep the samples lying in
the closed window `[t0, t1]`. -/

def traceSlice (t0 t1 : ℤ) (tr : Trace) : Trace :=
  ⟨tr.channel, tr.times.filter (fun x => decide (t0 ≤ x ∧ x ≤ t1))⟩

/-- Model of `ObsStream.slice(starttime, endtime)` with its default
`keep_empty_traces=False`: slice each trace to the window and drop traces
left with no samples. -/

def streamSlice (t0 t1 : ℤ) (st : ObsStream) : ObsStream :=
  (st.map (traceSlice t0 t1)).filter (fun tr => !tr.times.isEmpty)

/-- Model of `ObsStream.select(channel=c)` for a literal (wildcard-free)
channel code: keep the traces whose channel equals `c`. -/

def streamSelect (c : Str) (st : ObsStream) : ObsStream :=
  st.filter (fun tr => decide (tr.channel = c))

/-- Embedding of `DataProcessor.extract_segment` (mseed_event_extractor.py
lines 78–89): raises when no stream is loaded (`if not self.stream`, which
is also true of a loaded empty stream), slices the stream to
`(start_time, start_time + duration)`, filters to the requested channel, and
raises when the result is empty. -/

def extract_segment (stream : Option ObsStream) (start_time duration : ℤ)
    (channel : Str) : Except Str ObsStream :=
  match stream with
  | none => .error "No hay archivo cargado".data
  | some st =>
    if st.isEmpty then .error "No hay archivo cargado".data
    else
      let end_time := start_time + duration
      let segment := streamSelect channel (streamSlice start_time end_time st)
      if segment.isEmpty then
        .error "No hay datos en el intervalo especificado".data
      else .ok segment

/-- A stream has a sample of channel `ch` at instant `x`. -/

def ObsStream.hasSample (st : ObsStream) (ch : Str) (x : ℤ) : Prop :=
  ∃ tr ∈ st, tr.channel = ch ∧ x ∈ tr.times

/-- State of the `EventExtractorGUI` widgets and components that the
verified behaviours read or write. Numeric entry widgets are modelled by the
value `float(entry.get())` would produce, in microseconds, with `none`
standing for text on which `float` raises; the start-time entry is kept as a
string because `parse_time_with_ms` consumes the raw text. -/

structure GuiState where
  stream : Option ObsStream
  file_starttime : Option UTC
  file_endtime : Option UTC
  entry_hora : Str
  spin_duracion : Option ℤ
  entry_shift : Option ℤ
  channel : Str
  centering_active : Bool
  btn_centrar : Str
  lbl_pos : Str
  lbl_centro : Str
  deriving DecidableEq, Repr

/-- Embedding of `CenteringMode._update_ui` (mseed_event_extractor.py lines
164–171): refreshes the button relief text and the position label from the
flag. -/

def centeringUpdateUI (st : GuiState) : GuiState :=
  if st.centering_active then
    { st with btn_centrar := "Centrar: ON".data, lbl_pos := "Δ: --".data }
  else
    { st with btn_centrar := "Centrar: OFF".data, lbl_pos := "Posición: --".data }

/-- Embedding of `CenteringMode.toggle` (lines 154–157): flip the flag,
then refresh the UI. -/

def centeringToggle (st : GuiState) : GuiState :=
  centeringUpdateUI { st with centering_active := !st.centering_active }

/-- Embedding of `CenteringMode.deactivate` (lines 159–162). -/

def centeringDeactivate (st : GuiState) : GuiState :=
  centeringUpdateUI { st with centering_active := false }

/-- A matplotlib mouse event as seen by the click callback: whether
`event.inaxes` is non-`None`, and the `event.xdata` plot coordinate
(seconds along the x-axis, here in microseconds). -/

structure ClickEvent where
  inaxes : Bool
  xdata : ℤ
  deriving DecidableEq, Repr

/-- Model of Python `f"{delta:.2f}"` read back as a number: rounding to the
nearest hundredth of a second, i.e. to the nearest multiple of 10000
microseconds (ties rounded up; Python rounds the underlying binary float to
even, which no verified property exercises). -/

def pyFmt2dec (n : ℤ) : ℤ := ((n + 5000) / 10000) * 10000

/-- Embedding of `EventExtractorGUI._on_plot_click` (mseed_event_extractor.py
lines 395–408): if centering mode is inactive or the click is outside the
axes the handler returns with the state untouched; otherwise it reads the
duration spinbox (an unparsable duration raises an uncaught `ValueError`,
modelled as `.error` with the state untouched), writes
`f"{x_click - duration/2:.2f}"` to the shift entry, and toggles centering
mode off. -/

def on_plot_click (st : GuiState) (ev : ClickEvent) : Except Str GuiState :=
  if ¬st.centering_active ∨ ¬ev.inaxes then .ok st
  else
    match st.spin_duracion with
    | none => .error "could not convert string to float".data
    | some dur =>
      let delta := ev.xdata - dur / 2
      .ok (centeringToggle { st with entry_shift := some (pyFmt2dec delta) })

/-- The validated preview parameters returned by
`EventExtractorGUI._get_preview_parameters`. -/

structure PreviewParams where
  hora_dt : PyTime
  duration : ℤ
  shift_seconds : ℤ
  channel : Str
  deriving DecidableEq, Repr

/-- Embedding of `EventExtractorGUI._get_preview_parameters`
(mseed_event_extractor.py lines 319–339): parse the start-time entry
(re-raising as "Formato de hora inicio inválido"), then read duration and
shift (`float` failure raises "Duración o desplazamiento no válidos"). -/

def get_preview_parameters (st : GuiState) : Except Str PreviewParams :=
  match parse_time_with_ms st.entry_hora with
  | .error _ => .error "Formato de hora inicio inválido".data
  | .ok hora_dt =>
    match st.spin_duracion, st.entry_shift with
    | some dur, some sh => .ok ⟨hora_dt, dur, sh, st.channel⟩
    | _, _ => .error "Duración o desplazamiento no válidos".data

/-- A dialog box shown by `messagebox.showwarning` / `showerror`. -/
inductive Dialog where
  | warn (title msg : Str)
  | err (title msg : Str)
  deriving DecidableEq, Repr

/-- Embedding of `EventExtractorGUI._preview` together with its helpers
`_update_time_display` and `_update_center_display` (mseed_event_extractor.py
lines 341–389): warn if no stream is loaded; validate the parameters; build
the shifted start instant with `create_utc_datetime`; extract the segment;
on success write the re-formatted start time into the start-time entry,
reset the shift entry to `"0"`, refresh the centre label and deactivate
centering mode; on any raised error show a dialog and leave the state as it
was. The created matplotlib plot is outside the modelled state. -/

def preview (st : GuiState) : GuiState × Option Dialog :=
  match st.stream with
  | none => (st, some (.warn "Aviso".data "Primero abre un archivo mseed.".data))
  | some s =>
    if s.isEmpty then
      (st, some (.warn "Aviso".data "Primero abre un archivo mseed.".data))
    else
      match get_preview_parameters st with
      | .error msg => (st, some (.err "Error".data msg))
      | .ok params =>
        match st.file_starttime with
        | none =>
          (st, some (.err "Error".data
            "'NoneType' object has no attribute 'date'".data))
        | some ft =>
          let pair := create_utc_datetime (UTC.date ft) params.hora_dt
            params.shift_seconds
          match extract_segment st.stream pair.1.micros params.duration
              params.channel with
          | .error msg => (st, some (.err "Error".data msg))
          | .ok _ =>
            let st1 := { st with
              entry_hora := format_time_with_ms pair.2,
              entry_shift := some 0 }
            let center := pair.1.micros + params.duration / 2
            let st2 := { st1 with
              lbl_centro :=
                "Centro: ".data ++
                  format_time_with_ms (PyDatetime.ofMicros center) }
            (centeringDeactivate st2, none)

/-- Model of Python `os.path.join(a, b)` for POSIX paths: an absolute `b`
replaces `a`; otherwise the components are joined with a single `/`. -/

def pyJoin (a b : Str) : Str :=
  if b.headI = '/' ∧ b ≠ [] then b
  else if a = [] then b
  else if a.getLastD '/' = '/' then a ++ b
  else a ++ '/' :: b

/-- Microsecond value of up to six fractional-part digits. -/

def fracMicros (fp : Str) : ℤ :=
  (digitsVal (fp.take 6) : ℤ) * (10 : ℤ) ^ (6 - min 6 fp.length)

/-- Unsigned core of `pyFloatMicros`: an integer part, optionally followed
by `.` and a fractional part, at least one of the two nonempty. -/

def pyFloatCore (r : Str) : Option ℤ :=
  match pySplit '.' r with
  | [ip] =>
    if ip ≠ [] ∧ ip.all isDig then some ((digitsVal ip : ℤ) * 1000000) else none
  | [ip, fp] =>
    if (ip ≠ [] ∨ fp ≠ []) ∧ ip.all isDig ∧ fp.all isDig then
      some ((digitsVal ip : ℤ) * 1000000 + fracMicros fp)
    else none
  | _ => none

/-- Model of Python `float(str)` at microsecond granularity, restricted to
plain decimal numerals with an optional sign (the exponent, `inf`/`nan`,
underscore and whitespace forms accepted by the stdlib are not modelled;
no verified property depends on them). `none` models a raised
`ValueError`. -/

def pyFloatMicros (s : Str) : Option ℤ :=
  match s with
  | '+' :: r => pyFloatCore r
  | '-' :: r => (pyFloatCore r).map Int.neg
  | r => pyFloatCore r

/-- The environment `visualizar_evento.py` runs in: availability of
tkinter, the `.env` discovery and `PROJECT_LOCAL_ROOT` value (the empty
string models both an unset and an empty variable, which Python treats
alike as falsy), the full `sys.argv` (element 0 is the script name), the
filesystem (`os.path.isfile`), whether `obspy.read` succeeds and the stream
it returns, and the instants `UTCDateTime(...)` parses ISO-8601 strings to
(`none` models a raised exception). -/

structure CliEnv where
  tkinter_ok : Bool
  env_file_found : Bool
  project_root : Str
  argv : List Str
  isfile : Str → Bool
  read_ok : Bool
  stream : ObsStream
  utc_parse : Str → Option ℤ

/-- The observable outcome of running the script: a process exit with a
status code, or reaching the final `stream_recortado.plot()` call with a
given sliced stream. -/
inductive CliOutcome where
  | exitCode (n : ℕ)
  | plot (s : ObsStream)
  deriving DecidableEq

/-- The path `os.path.join(PROJECT_LOCAL_ROOT, "resultados", "mseed",
nombre_archivo)` built at visualizar_evento.py line 55. -/

def rutaMseed (root nombre : Str) : Str :=
  pyJoin (pyJoin (pyJoin root "resultados".data) "mseed".data) nombre

/-- Embedding of the module-level flow of `scripts/utils/visualizar_evento.py`
(lines 16–80): check tkinter, `.env`, `PROJECT_LOCAL_ROOT` and the argument
count (`sys.argv` must be the script name plus exactly three user
arguments), parse the duration with `float` (an unparsable duration is an
uncaught `ValueError`, which also terminates the process with status 1),
check the file exists, read and parse the start timestamp inside a `try`
that exits on any exception, slice, exit if the sliced stream is empty, and
only then plot. -/

def visualizar_evento (env : CliEnv) : CliOutcome :=
  if ¬env.tkinter_ok then .exitCode 1
  else if ¬env.env_file_found then .exitCode 1
  else if env.project_root = [] then .exitCode 1
  else
    match env.argv with
    | [_, nombre, ts, dstr] =>
      match pyFloatMicros dstr with
      | none => .exitCode 1
      | some duracion =>
        if ¬env.isfile (rutaMseed env.project_root nombre) then .exitCode 1
        else if ¬env.read_ok then .exitCode 1
        else
          match env.utc_parse ts with
          | none => .exitCode 1
          | some inicio =>
            let recortado := streamSlice inicio (inicio + duracion) env.stream
            if recortado.isEmpty then .exitCode 1
            else .plot recortado
    | _ => .exitCode 1

/-- The strict `HH:MM:SS` body named by the specification: exactly
two-digit hour, minute and second fields, in range, separated by colons. -/

def claimedHMS (m : Str) : Bool :=
  match pySplit ':' m with
  | [h, mi, se] =>
    h.length = 2 ∧ h.all isDig ∧ digitsVal h ≤ 23 ∧
    mi.length = 2 ∧ mi.all isDig ∧ digitsVal mi ≤ 59 ∧
    se.length = 2 ∧ se.all isDig ∧ digitsVal se ≤ 59
  | _ => false

/-- The documented input forms `"HH:MM:SS"` and `"HH:MM:SS,<digits>"` with
in-range hour, minute and second fields, stated from the specification's
words (to be compared against what the parser actually accepts). -/

def isClaimedTimeForm (s : Str) : Bool :=
  match pySplit ',' s with
  | [m] => claimedHMS m
  | [m, d] => claimedHMS m ∧ d ≠ [] ∧ d.all isDig
  | _ => false

/-- The exact language accepted by `parse_time_with_ms`: an `%H:%M:%S` body
(fields of one or two digits, hour at most 23, two-digit minute/second at
most 59), optionally followed by a comma and a Python integer literal whose
value lies in `[0, 999]`. -/

def acceptsTime (s : Str) : Bool :=
  match pySplit ',' s with
  | [m] => (strptime_hms m).isSome
  | [m, msPart] =>
    (strptime_hms m).isSome &&
      (match pyInt msPart with
       | some n => decide (0 ≤ n ∧ n ≤ 999)
       | none => false)
  | _ => false

/-- A one-trace demonstration stream with a single `ENT` sample five
seconds after the epoch. -/

def demoStream : ObsStream := [⟨"ENT".data, [5000000]⟩]

/-- A demonstration GUI state on which preview succeeds: file start at the
epoch, start-time entry `"00:00:00"`, duration 10 s, shift 0, channel
`ENT`, centering mode on. -/

def demoState : GuiState :=
  ⟨some demoStream, some ⟨0⟩, some ⟨0⟩, "00:00:00".data, some 10000000,
    some 0, "ENT".data, true, [], [], []⟩

/-- A demonstration CLI environment in which the `.env` file is missing. -/

def demoCliEnv : CliEnv :=
  ⟨true, false, "/proj".data, [[], [], [], []], fun _ => true, true,
    demoStream, fun _ => some 0⟩

theorem toMicros_ofMicros (n : ℤ) : (PyDatetime.ofMicros n).toMicros = n := by
  unfold PyDatetime.ofMicros PyDatetime.toMicros
  simp only
  omega

theorem ofMicros_WF (n : ℤ) : (PyDatetime.ofMicros n).WF := by
  unfold PyDatetime.ofMicros PyDatetime.WF
  refine ⟨?_, ?_, ?_, ?_, ?_, ?_, ?_, ?_⟩ <;> simp only <;> omega

/-- C3: Combining date, time and shift: `create_utc_datetime d t s`
returns the pair `(UTCDateTime(b), b)` with
`b = datetime.combine(d, t) + timedelta(seconds=s)` (the shift given at
`timedelta` resolution, i.e. in microseconds); both components denote the
same absolute instant, namely the instant of `combine(d, t)` shifted by `s`,
and `b` is a well-formed (field-normalized) datetime. -/

theorem create_utc_datetime_spec (d : ℤ) (t : PyTime) (s : ℤ) :
    (create_utc_datetime d t s).2 = datetimeAdd (datetimeCombine d t) s ∧
    (create_utc_datetime d t s).1 = UTC.ofDatetime (create_utc_datetime d t s).2 ∧
    (create_utc_datetime d t s).1.micros = (datetimeCombine d t).toMicros + s ∧
    (create_utc_datetime d t s).2.toMicros = (datetimeCombine d t).toMicros + s ∧
    (create_utc_datetime d t s).2.WF := by
  refine ⟨rfl, rfl, ?_, ?_, ?_⟩
  · exact toMicros_ofMicros _
  · exact toMicros_ofMicros _
  · exact ofMicros_WF _

theorem pySplit_ne_nil (sep : Char) (l : Str) : pySplit sep l ≠ [] := by
  cases l with
  | nil => simp [pySplit]
  | cons c rest =>
    simp only [pySplit]
    by_cases h : c = sep
    · simp [h]
    · simp only [h, if_false]
      cases pySplit sep rest <;> simp

theorem pySplit_length (sep : Char) (l : Str) :
    (pySplit sep l).length = l.count sep + 1 := by
  induction l with
  | nil => simp [pySplit]
  | cons c rest ih =>
    by_cases h : c = sep
    · subst h
      simp [pySplit, List.count_cons, ih]
    · simp only [pySplit, h, if_false]
      cases hs : pySplit sep rest with
      | nil => exact absurd hs (pySplit_ne_nil sep rest)
      | cons g gs =>
        have h2 := ih
        rw [hs] at h2
        simp only [List.length_cons] at h2 ⊢
        rw [List.count_cons]
        simp only [beq_iff_eq, h, if_false]
        omega

theorem mem_iff_pySplit_two_le (sep : Char) (l : Str) :
    sep ∈ l ↔ 2 ≤ (pySplit sep l).length := by
  rw [pySplit_length]
  constructor
  · intro h
    have := List.count_pos_iff.mpr h
    omega
  · intro h
    have hc : 0 < l.count sep := by omega
    exact List.count_pos_iff.mp hc

theorem pySplit_of_not_mem (sep : Char) (l : Str) (h : sep ∉ l) :
    pySplit sep l = [l] := by
  induction l with
  | nil => simp [pySplit]
  | cons c rest ih =>
    simp only [List.mem_cons, not_or] at h
    have hc : ¬c = sep := fun hh => h.1 hh.symm
    simp [pySplit, hc, ih h.2]

theorem pySplit_append_cons (sep : Char) (a b : Str) (h : sep ∉ a) :
    pySplit sep (a ++ sep :: b) = a :: pySplit sep b := by
  induction a with
  | nil => simp [pySplit]
  | cons c rest ih =>
    simp only [List.mem_cons, not_or] at h
    have hc : ¬c = sep := fun hh => h.1 hh.symm
    simp only [List.cons_append, pySplit, hc, if_false, List.append_eq, ih h.2]

theorem digitsVal_single (c : Char) : digitsVal [c] = digVal c := by
  simp [digitsVal, List.foldl]

theorem digVal_le_nine (c : Char) (h : isDig c = true) : digVal c ≤ 9 := by
  simp only [isDig, decide_eq_true_eq, Bool.and_eq_true] at h
  unfold digVal
  omega

theorem digitsVal_le_of_okH (f : Str) (h : okFieldH f = true) :
    digitsVal f ≤ 23 := by
  simp only [okFieldH, decide_eq_true_eq, Bool.and_eq_true] at h
  obtain ⟨hd, hl⟩ := h
  rcases hl with h1 | ⟨h2, hv⟩
  · obtain ⟨c, rfl⟩ := List.length_eq_one.mp h1
    have := digVal_le_nine c (hd c (List.mem_singleton_self c))
    rw [digitsVal_single]
    omega
  · exact hv

theorem digitsVal_le_of_okM (f : Str) (h : okFieldM f = true) :
    digitsVal f ≤ 59 := by
  simp only [okFieldM, decide_eq_true_eq, Bool.and_eq_true] at h
  obtain ⟨hd, hl⟩ := h
  rcases hl with h1 | ⟨h2, hv⟩
  · obtain ⟨c, rfl⟩ := List.length_eq_one.mp h1
    have := digVal_le_nine c (hd c (List.mem_singleton_self c))
    rw [digitsVal_single]
    omega
  · exact hv

theorem strptime_bounds (s : Str) (h mi se : ℤ)
    (hp : strptime_hms s = some (h, mi, se)) :
    0 ≤ h ∧ h ≤ 23 ∧ 0 ≤ mi ∧ mi ≤ 59 ∧ 0 ≤ se ∧ se ≤ 59 := by
  unfold strptime_hms at hp
  generalize hsp : pySplit ':' s = parts at hp
  rcases parts with _ | ⟨a, parts⟩
  · simp at hp
  rcases parts with _ | ⟨b, parts⟩
  · simp at hp
  rcases parts with _ | ⟨c, parts⟩
  · simp at hp
  rcases parts with _ | ⟨d, parts⟩
  case cons.cons.cons.cons => simp at hp
  simp only at hp
  split_ifs at hp with hcond
  · obtain ⟨h1, h2, h3, h4⟩ := hcond
    rw [Option.some.injEq, Prod.mk.injEq, Prod.mk.injEq] at hp
    obtain ⟨rfl, rfl, rfl⟩ := hp
    refine ⟨Int.natCast_nonneg _, ?_, Int.natCast_nonneg _, ?_,
      Int.natCast_nonneg _, ?_⟩
    · exact_mod_cast digitsVal_le_of_okH a h1
    · exact_mod_cast digitsVal_le_of_okM b h2
    · exact_mod_cast h4

theorem parse_error_msg (s e : Str) (h : parse_time_with_ms s = .error e) :
    e = invalidTimeMsg s := by
  unfold parse_time_with_ms at h
  split at h
  · split at h
    · split at h
      · split at h
        · exact Except.noConfusion h
        · injection h with h; exact h.symm
      · injection h with h; exact h.symm
    · injection h with h; exact h.symm
  · split at h
    · exact Except.noConfusion h
    · injection h with h; exact h.symm

theorem parse_ok_iff_accepts (s : Str) :
    (∃ t, parse_time_with_ms s = .ok t) ↔ acceptsTime s = true := by
  by_cases hc : ',' ∈ s
  · have hlen := (mem_iff_pySplit_two_le ',' s).mp hc
    unfold parse_time_with_ms acceptsTime
    rw [if_pos hc]
    cases hsp : pySplit ',' s with
    | nil => simp
    | cons m rest =>
      cases rest with
      | nil =>
        rw [hsp] at hlen
        simp at hlen
      | cons ms rest2 =>
        cases rest2 with
        | nil =>
          rcases hst : strptime_hms m with _ | ⟨⟨h, mi, se⟩⟩
          · simp [hst]
          · rcases hpi : pyInt ms with _ | n
            · simp [hst, hpi]
            · have hb := strptime_bounds m h mi se hst
              by_cases hn : 0 ≤ n ∧ n ≤ 999
              · have hwf : (PyTime.mk h mi se (n * 1000)).WF := by
                  unfold PyTime.WF
                  dsimp only
                  omega
                simp [hst, hpi, mkPyTime, hwf, hn]
              · have hwf : ¬(PyTime.mk h mi se (n * 1000)).WF := by
                  unfold PyTime.WF
                  dsimp only
                  omega
                simp [hst, hpi, mkPyTime, hwf, hn]
        | cons x rest3 => simp
  · have hsp := pySplit_of_not_mem ',' s hc
    unfold parse_time_with_ms acceptsTime
    rw [if_neg hc, hsp]
    rcases hst : strptime_hms s with _ | ⟨⟨h, mi, se⟩⟩
    · simp [hst]
    · simp [hst]

theorem dropWhile_eq_self_of_none (p : Char → Bool) (l : Str)
    (h : ∀ c ∈ l, p c = false) : l.dropWhile p = l := by
  cases l with
  | nil => rfl
  | cons c rest =>
    rw [List.dropWhile_cons, h c (List.mem_cons_self c rest)]
    simp

theorem stripWS_eq_self (l : Str) (h : ∀ c ∈ l, isPyWS c = false) :
    stripWS l = l := by
  unfold stripWS
  rw [dropWhile_eq_self_of_none isPyWS l h]
  rw [dropWhile_eq_self_of_none isPyWS l.reverse
    (fun c hc => h c (List.mem_reverse.mp hc))]
  exact List.reverse_reverse l

theorem noDoubleUS_of_no_us (l : Str) (h : ∀ c ∈ l, ¬c = '_') :
    noDoubleUS l = true := by
  induction l with
  | nil => rfl
  | cons a rest ih =>
    cases rest with
    | nil => rfl
    | cons b rest2 =>
      have ha := h a (List.mem_cons_self _ _)
      unfold noDoubleUS
      rw [ih (fun c hc => h c (List.mem_cons_of_mem a hc))]
      simp [ha]

theorem getLastD_isDig (l : Str) (c : Char)
    (h : ∀ x ∈ c :: l, isDig x = true) : isDig ((c :: l).getLastD '0') = true := by
  induction l generalizing c with
  | nil => exact h c (List.mem_cons_self _ _)
  | cons b rest ih =>
    rw [List.getLastD_cons]
    exact ih b (fun x hx => h x (List.mem_cons_of_mem c hx))

theorem isDig_not_ws (c : Char) (h : isDig c = true) : isPyWS c = false := by
  simp only [isDig, decide_eq_true_eq, Bool.and_eq_true] at h
  simp only [isPyWS, decide_eq_true_eq, Bool.or_eq_true]
  rcases h with ⟨h1, h2⟩
  simp only [decide_eq_false_iff_not]
  intro hcon
  rcases hcon with h3 | h3 | h3 | h3 | h3 | h3 <;>
    · subst h3; simp_all

theorem isDig_not_us (c : Char) (h : isDig c = true) : ¬c = '_' := by
  intro hcon
  subst hcon
  simp [isDig] at h

theorem pyInt_of_digits (suf : Str) (hne : suf ≠ [])
    (hd : ∀ c ∈ suf, isDig c = true) :
    pyInt suf = some ((digitsVal suf : ℤ)) := by
  have hstrip : stripWS suf = suf :=
    stripWS_eq_self suf (fun c hc => isDig_not_ws c (hd c hc))
  have hok : pyDigitsOK suf = true := by
    unfold pyDigitsOK
    cases suf with
    | nil => exact absurd rfl hne
    | cons c rest =>
      have hhead := hd c (List.mem_cons_self _ _)
      simp only [decide_eq_true_eq, Bool.and_eq_true, ne_eq, decide_not,
        Bool.not_eq_true', decide_eq_false_iff_not]
      refine ⟨by simp, fun x hx => Or.inl (hd x hx), ?_, ?_, ?_⟩
      · exact noDoubleUS_of_no_us _ (fun x hx => isDig_not_us x (hd x hx))
      · simpa [List.headI] using hhead
      · exact getLastD_isDig rest c hd
  have hfil : suf.filter isDig = suf := List.filter_eq_self.mpr hd
  unfold pyInt
  rw [hstrip]
  cases suf with
  | nil => exact absurd rfl hne
  | cons c rest =>
    have hhead := hd c (List.mem_cons_self _ _)
    have hplus : ¬c = '+' := by
      intro hcon; subst hcon; simp [isDig] at hhead
    have hminus : ¬c = '-' := by
      intro hcon; subst hcon; simp [isDig] at hhead
    split
    next r heq =>
      exact absurd (List.cons.injEq .. ▸ heq) (by simp [hplus])
    next r heq =>
      exact absurd (List.cons.injEq .. ▸ heq) (by simp [hminus])
    next heq1 heq2 =>
      rw [if_pos hok]
      unfold pyDigitsVal
      rw [hfil]

/-- C2 (amended): `parse_time_with_ms` returns a time exactly for the
strings of `acceptsTime`: an hour:minute:second body whose fields may be one
or two digits (hour at most 23, two-digit minute/second at most 59),
optionally followed by a comma and a Python integer literal whose value lies
in `[0, 999]`; every other string raises `ValueError`, and every raised
message is exactly `"Formato de hora inválido: "` followed by the offending
input (so it contains the input). The claim's strict reading — acceptance of
exactly `"HH:MM:SS[,<digits>]"` with in-range h/m/s — fails in both
directions: a millisecond count of 1000 or more is rejected, while lenient
`int`/`strptime` inputs such as one-digit fields or a signed suffix are
accepted. -/

theorem parse_time_with_ms_spec (s : Str) :
    ((∃ t, parse_time_with_ms s = .ok t) ↔ acceptsTime s = true) ∧
    (acceptsTime s = false →
      parse_time_with_ms s = .error (invalidTimeMsg s)) ∧
    (∀ e, parse_time_with_ms s = .error e → e = invalidTimeMsg s) := by
  refine ⟨parse_ok_iff_accepts s, ?_, fun e he => parse_error_msg s e he⟩
  intro hfalse
  cases hpe : parse_time_with_ms s with
  | ok t =>
    have := (parse_ok_iff_accepts s).mp ⟨t, hpe⟩
    rw [hfalse] at this
    exact Bool.noConfusion this
  | error e =>
    exact congrArg Except.error (parse_error_msg s e hpe)

/-- Witness for `parse_time_with_ms_spec`: the malformed string
`"99:00:00"` is rejected with the documented message. -/

theorem parse_time_with_ms_spec_witness :
    parse_time_with_ms "99:00:00".data =
      .error (invalidTimeMsg "99:00:00".data) :=
  (parse_time_with_ms_spec "99:00:00".data).2.1 (by rfl)

/-- Counterexample to C2 as stated: `"12:00:00,1000"` is of the documented
form `"HH:MM:SS,<digits>"` with in-range hour, minute and second fields, yet
`parse_time_with_ms` raises `ValueError` on it instead of returning a
time. -/

theorem parse_claimed_form_counterexample :
    isClaimedTimeForm "12:00:00,1000".data = true ∧
    parse_time_with_ms "12:00:00,1000".data =
      .error (invalidTimeMsg "12:00:00,1000".data) :=
  ⟨by decide, by rfl⟩

/-- C8: The digits after the comma are an integer count of milliseconds
regardless of digit count: appended to any `%H:%M:%S` body `pre`, a digit
suffix of value below 1000 parses to the time of `pre` with
`microsecond = value * 1000`, and a digit suffix of value 1000 or more makes
the call raise `ValueError`. -/

theorem parse_ms_suffix_spec (pre suf : Str) (h mi se : ℤ)
    (hpre : strptime_hms pre = some (h, mi, se))
    (hnc : ',' ∉ pre)
    (hne : suf ≠ []) (hd : ∀ c ∈ suf, isDig c = true) :
    (digitsVal suf ≤ 999 →
      parse_time_with_ms (pre ++ ',' :: suf) =
        .ok ⟨h, mi, se, (digitsVal suf : ℤ) * 1000⟩) ∧
    (1000 ≤ digitsVal suf →
      parse_time_with_ms (pre ++ ',' :: suf) =
        .error (invalidTimeMsg (pre ++ ',' :: suf))) := by
  have hmem : ',' ∈ pre ++ ',' :: suf :=
    List.mem_append_right _ (List.mem_cons_self _ _)
  have hnc2 : ',' ∉ suf := by
    intro hmem2
    have := hd ',' hmem2
    simp [isDig] at this
  have hsp : pySplit ',' (pre ++ ',' :: suf) = [pre, suf] := by
    rw [pySplit_append_cons ',' pre suf hnc, pySplit_of_not_mem ',' suf hnc2]
  have hb := strptime_bounds pre h mi se hpre
  have hpi := pyInt_of_digits suf hne hd
  constructor
  · intro hlt
    unfold parse_time_with_ms
    rw [if_pos hmem, hsp]
    simp only [hpre, hpi]
    have hwf : (PyTime.mk h mi se ((digitsVal suf : ℤ) * 1000)).WF := by
      unfold PyTime.WF
      dsimp only
      omega
    simp [mkPyTime, hwf]
  · intro hge
    unfold parse_time_with_ms
    rw [if_pos hmem, hsp]
    simp only [hpre, hpi]
    have hwf : ¬(PyTime.mk h mi se ((digitsVal suf : ℤ) * 1000)).WF := by
      unfold PyTime.WF
      dsimp only
      omega
    simp [mkPyTime, hwf]

/-- Witness for `parse_ms_suffix_spec`: the one-digit suffix `"7"` yields
7 milliseconds (7000 microseconds), not 700 milliseconds. -/

theorem parse_ms_suffix_spec_witness :
    parse_time_with_ms "01:02:03,7".data = .ok ⟨1, 2, 3, 7000⟩ := by
  have h := (parse_ms_suffix_spec "01:02:03".data "7".data 1 2 3 (by rfl)
    (by decide) (by decide) (by decide)).1 (by decide)
  have heq : "01:02:03".data ++ ',' :: "7".data = "01:02:03,7".data := by decide
  rw [heq] at h
  exact h.trans (congrArg Except.ok (by decide))

/-- C1 (code bug): The documented round-trip fails for three-digit
millisecond fields with a leading zero: `"00:00:00,005"` parses to 5 ms,
but `format_time_with_ms` re-formats that time (placed on any base date) as
`"00:00:00,05"`, because the refactored script pads the millisecond count
with `:02d` where the original script (test_gui.py line 109) pads with
`:03d`. -/

theorem roundtrip_fails_for_005 :
    parse_time_with_ms "00:00:00,005".data = .ok ⟨0, 0, 0, 5000⟩ ∧
    format_time_with_ms (datetimeCombine 0 ⟨0, 0, 0, 5000⟩) =
      "00:00:00,05".data ∧
    format_time_with_ms (datetimeCombine 0 ⟨0, 0, 0, 5000⟩) ≠
      "00:00:00,005".data :=
  ⟨by rfl, by rfl, by decide⟩

/-- C7 (code bug): The refactored `format_time_with_ms` and the original
inline re-formatting in `previsualizar` disagree on datetimes whose
millisecond count is below 100: at 5 ms the refactored script shows
`"12:00:00,05"` while the original shows `"12:00:00,005"`. -/

theorem format_variants_diverge :
    format_time_with_ms ⟨0, 12, 0, 0, 5000⟩ = "12:00:00,05".data ∧
    previsualizar_new_str ⟨0, 12, 0, 0, 5000⟩ = "12:00:00,005".data ∧
    format_time_with_ms ⟨0, 12, 0, 0, 5000⟩ ≠
      previsualizar_new_str ⟨0, 12, 0, 0, 5000⟩ :=
  ⟨by rfl, by rfl, by decide⟩

theorem traceSlice_channel (t0 t1 : ℤ) (tr : Trace) :
    (traceSlice t0 t1 tr).channel = tr.channel := rfl

theorem mem_traceSlice_times (t0 t1 : ℤ) (tr : Trace) (x : ℤ) :
    x ∈ (traceSlice t0 t1 tr).times ↔ (x ∈ tr.times ∧ t0 ≤ x ∧ x ≤ t1) := by
  simp [traceSlice, List.mem_filter]

theorem hasSample_select_slice (s : ObsStream) (t0 t1 : ℤ) (c ch : Str)
    (x : ℤ) :
    (streamSelect c (streamSlice t0 t1 s)).hasSample ch x ↔
      (ch = c ∧ s.hasSample ch x ∧ t0 ≤ x ∧ x ≤ t1) := by
  constructor
  · rintro ⟨tr, htr, hch, hx⟩
    simp only [streamSelect, List.mem_filter] at htr
    obtain ⟨htr1, hc2⟩ := htr
    simp only [streamSlice, List.mem_filter, List.mem_map] at htr1
    obtain ⟨⟨tr0, htr0, rfl⟩, hne⟩ := htr1
    rw [mem_traceSlice_times] at hx
    rw [traceSlice_channel] at hch
    rw [decide_eq_true_eq, traceSlice_channel] at hc2
    rw [hch] at hc2
    exact ⟨hc2, ⟨tr0, htr0, hch, hx.1⟩, hx.2.1, hx.2.2⟩
  · rintro ⟨rfl, ⟨tr0, htr0, hch, hx⟩, h0, h1⟩
    have hmem : x ∈ (traceSlice t0 t1 tr0).times :=
      (mem_traceSlice_times t0 t1 tr0 x).mpr ⟨hx, h0, h1⟩
    refine ⟨traceSlice t0 t1 tr0, ?_, ?_, hmem⟩
    · simp only [streamSelect, List.mem_filter]
      refine ⟨?_, ?_⟩
      · simp only [streamSlice, List.mem_filter, List.mem_map]
        refine ⟨⟨tr0, htr0, rfl⟩, ?_⟩
        simp only [Bool.not_eq_eq_eq_not, Bool.not_true, List.isEmpty_eq_false]
        exact List.ne_nil_of_mem hmem
      · rw [decide_eq_true_eq, traceSlice_channel]
        exact hch
    · rw [traceSlice_channel]
      exact hch

/-- C4: `extract_segment` passes exactly the boundary pair
`(t, t + d)` to the library's slice and filters the result to channel `c`:
on a loaded nonempty stream it returns
`select c (slice t (t+d) stream)` when that is nonempty and raises
otherwise; the returned segment holds a sample of channel `ch` at instant
`x` exactly when the loaded stream holds it, `ch = c`, and
`t ≤ x ≤ t + d`; with no stream loaded it raises. -/

theorem extract_segment_spec (s : ObsStream) (t d : ℤ) (c : Str)
    (hs : s ≠ []) :
    extract_segment none t d c = .error "No hay archivo cargado".data ∧
    extract_segment (some []) t d c = .error "No hay archivo cargado".data ∧
    (extract_segment (some s) t d c =
      if (streamSelect c (streamSlice t (t + d) s)).isEmpty then
        .error "No hay datos en el intervalo especificado".data
      else .ok (streamSelect c (streamSlice t (t + d) s))) ∧
    (∀ seg, extract_segment (some s) t d c = .ok seg →
      seg ≠ [] ∧
      ∀ ch x, seg.hasSample ch x ↔
        (ch = c ∧ s.hasSample ch x ∧ t ≤ x ∧ x ≤ t + d)) := by
  have hse : s.isEmpty = false := by
    cases s with
    | nil => exact absurd rfl hs
    | cons a l => rfl
  refine ⟨rfl, rfl, ?_, ?_⟩
  · simp only [extract_segment, hse, Bool.false_eq_true, if_false]
  · intro seg hseg
    simp only [extract_segment, hse, Bool.false_eq_true, if_false] at hseg
    split at hseg
    · exact Except.noConfusion hseg
    · injection hseg with hseg
      subst hseg
      constructor
      · intro hcon
        simp [hcon] at *
      · intro ch x
        exact hasSample_select_slice s t (t + d) c ch x

/-- Witness for `extract_segment_spec`: a one-trace stream with a sample at
instant 3 yields a nonempty segment for the window `[0, 10]`. -/

theorem extract_segment_spec_witness :
    ([Trace.mk "ENT".data [(3 : ℤ)]] : ObsStream) ≠ [] :=
  ((extract_segment_spec [⟨"ENT".data, [3]⟩] 0 10 "ENT".data
      (by decide)).2.2.2 [⟨"ENT".data, [3]⟩] (by rfl)).1

theorem centeringUpdateUI_active (st : GuiState) :
    (centeringUpdateUI st).centering_active = st.centering_active := by
  unfold centeringUpdateUI
  split <;> rfl

theorem centeringUpdateUI_shift (st : GuiState) :
    (centeringUpdateUI st).entry_shift = st.entry_shift := by
  unfold centeringUpdateUI
  split <;> rfl

/-- C5 (amended): Toggling centering mode flips `is_active` (two
toggles restore it), and a click changes meaning with the flag: with the
mode active and the click inside the axes (and a readable duration), the
shift entry is set to `x_click - duration/2` rounded to two decimal places
(the handler writes `f"{delta:.2f}"`) and the mode is deactivated; with the
mode inactive or the click outside the axes, the handler returns leaving
the whole state unchanged. -/

theorem centering_click_spec (st : GuiState) (ev : ClickEvent) (dur : ℤ) :
    (centeringToggle st).centering_active = !st.centering_active ∧
    (centeringToggle (centeringToggle st)).centering_active =
      st.centering_active ∧
    ((¬st.centering_active ∨ ¬ev.inaxes) → on_plot_click st ev = .ok st) ∧
    (st.centering_active → ev.inaxes → st.spin_duracion = some dur →
      on_plot_click st ev =
        .ok (centeringToggle
          { st with entry_shift := some (pyFmt2dec (ev.xdata - dur / 2)) }) ∧
      ∀ st2, on_plot_click st ev = .ok st2 →
        st2.entry_shift = some (pyFmt2dec (ev.xdata - dur / 2)) ∧
        st2.centering_active = false) := by
  refine ⟨?_, ?_, ?_, ?_⟩
  · rw [centeringToggle, centeringUpdateUI_active]
  · rw [centeringToggle, centeringUpdateUI_active,
      centeringToggle, centeringUpdateUI_active, Bool.not_not]
  · intro h
    unfold on_plot_click
    rw [if_pos h]
  · intro ha hx hdur
    have hcond : ¬(¬st.centering_active ∨ ¬ev.inaxes) := by
      simp [ha, hx]
    have hclick : on_plot_click st ev =
        .ok (centeringToggle
          { st with entry_shift := some (pyFmt2dec (ev.xdata - dur / 2)) }) := by
      unfold on_plot_click
      rw [if_neg hcond, hdur]
    refine ⟨hclick, ?_⟩
    intro st2 h2
    rw [hclick] at h2
    injection h2 with h2
    subst h2
    constructor
    · rw [centeringToggle, centeringUpdateUI_shift]
    · rw [centeringToggle, centeringUpdateUI_active, ha]
      rfl

/-- Witness for `centering_click_spec`: with centering active, duration
10 s and a click at 0.001 s inside the axes, the shift entry becomes
-5 s (the two-decimal rounding of -4.999 s) and the mode turns off. -/

theorem centering_click_spec_witness :
    on_plot_click
      ⟨none, none, none, [], some 10000000, some 0, "ENT".data, true,
        [], [], []⟩ ⟨true, 1000⟩ =
      .ok (centeringToggle
        { (⟨none, none, none, [], some 10000000, some 0, "ENT".data, true,
            [], [], []⟩ : GuiState) with
          entry_shift := some (pyFmt2dec ((1000 : ℤ) - 10000000 / 2)) }) :=
  ((centering_click_spec
      ⟨none, none, none, [], some 10000000, some 0, "ENT".data, true,
        [], [], []⟩ ⟨true, 1000⟩ 10000000).2.2.2
    (by decide) (by decide) (by rfl)).1

/-- Counterexample to C5 as stated: at a click at 0.001 s with duration
10 s the handler stores the rounded value -5 s, not
`x_click - duration/2 = -4.999 s` exactly. -/

theorem centering_click_counterexample :
    on_plot_click
      ⟨none, none, none, [], some 10000000, some 0, "ENT".data, true,
        [], [], []⟩ ⟨true, 1000⟩ =
      .ok (centeringToggle
        { (⟨none, none, none, [], some 10000000, some 0, "ENT".data, true,
            [], [], []⟩ : GuiState) with
          entry_shift := some (-5000000) }) ∧
    ((1000 : ℤ) - 10000000 / 2) ≠ -5000000 :=
  ⟨by rfl, by decide⟩

theorem centeringUpdateUI_hora (st : GuiState) :
    (centeringUpdateUI st).entry_hora = st.entry_hora := by
  unfold centeringUpdateUI
  split <;> rfl

/-- C6: Failure model of `_preview`: whenever the preview operation
shows a dialog, the state — in particular the loaded data
(`stream`, `file_starttime`, `file_endtime`) — is exactly what it was
before the call; no dialog is shown exactly when a nonempty stream is
loaded, the parameters validate, and the extracted segment is nonempty;
and the parameters validate exactly when the start-time entry parses and
the duration and shift entries are numeric. -/

theorem preview_failure_spec (st : GuiState)
    (hwf : ∀ s, st.stream = some s → s ≠ [] → st.file_starttime.isSome) :
    ((preview st).2.isSome → (preview st).1 = st) ∧
    ((preview st).2 = none ↔
      ∃ s ft p seg, st.stream = some s ∧ s ≠ [] ∧
        st.file_starttime = some ft ∧
        get_preview_parameters st = .ok p ∧
        extract_segment (some s)
          (create_utc_datetime (UTC.date ft) p.hora_dt
            p.shift_seconds).1.micros
          p.duration p.channel = .ok seg) ∧
    (∀ p, get_preview_parameters st = .ok p ↔
      ∃ t dur sh, parse_time_with_ms st.entry_hora = .ok t ∧
        st.spin_duracion = some dur ∧ st.entry_shift = some sh ∧
        p = ⟨t, dur, sh, st.channel⟩) := by
  refine ⟨?_, ?_, ?_⟩
  · cases hstream : st.stream with
    | none => intro _; simp [preview, hstream]
    | some s =>
      by_cases hse : s.isEmpty
      · intro _; simp [preview, hstream, hse]
      · cases hparams : get_preview_parameters st with
        | error msg =>
          intro _
          simp [preview, hstream, hse, hparams]
        | ok p =>
          cases hft : st.file_starttime with
          | none =>
            intro _
            simp [preview, hstream, hse, hparams, hft]
          | some ft =>
            cases hext : extract_segment (some s)
                ((create_utc_datetime (UTC.date ft) p.hora_dt
                  p.shift_seconds).1.micros) p.duration p.channel with
            | error msg =>
              intro _
              simp [preview, hstream, hse, hparams, hft, hext]
            | ok seg =>
              intro hsome
              simp [preview, hstream, hse, hparams, hft, hext] at hsome
  · cases hstream : st.stream with
    | none => simp [preview, hstream]
    | some s =>
      by_cases hse : s.isEmpty
      · rw [List.isEmpty_iff] at hse
        subst hse
        simp [preview, hstream]
      · have hne : s ≠ [] := by
          intro hcon
          rw [hcon] at hse
          exact hse rfl
        cases hparams : get_preview_parameters st with
        | error msg =>
          simp [preview, hstream, hse, hparams]
        | ok p =>
          cases hft : st.file_starttime with
          | none =>
            have := hwf s hstream hne
            rw [hft] at this
            exact absurd this (by simp)
          | some ft =>
            cases hext : extract_segment (some s)
                ((create_utc_datetime (UTC.date ft) p.hora_dt
                  p.shift_seconds).1.micros) p.duration p.channel with
            | error msg =>
              simp [preview, hstream, hse, hparams, hft, hext]
            | ok seg =>
              simp only [preview, hstream, hse, hparams, hft, hext]
              constructor
              · intro _
                exact ⟨s, ft, p, seg, rfl, hne, rfl, rfl, hext⟩
              · intro _
                rfl
  · intro p
    unfold get_preview_parameters
    cases hp : parse_time_with_ms st.entry_hora with
    | error e => simp [hp]
    | ok t =>
      cases hd : st.spin_duracion with
      | none => simp [hp, hd]
      | some dur =>
        cases hsh : st.entry_shift with
        | none => simp [hp, hd, hsh]
        | some sh =>
          simp only [hp, hd, hsh, Except.ok.injEq, Option.some.injEq]
          constructor
          · intro h
            exact ⟨t, dur, sh, rfl, rfl, rfl, h.symm⟩
          · rintro ⟨t2, dur2, sh2, ht2, hd2, hsh2, rfl⟩
            rw [ht2, hd2, hsh2]

/-- C9: After every successful preview the shift entry reads `"0"`, the
start-time entry holds the re-formatted shifted start time (the previous
shift has been folded into the start time), and centering mode is
deactivated. -/

theorem preview_success_spec (st : GuiState) (s : ObsStream) (ft : UTC)
    (p : PreviewParams) (seg : ObsStream)
    (h1 : st.stream = some s) (h2 : s.isEmpty = false)
    (h3 : get_preview_parameters st = .ok p)
    (h4 : st.file_starttime = some ft)
    (h5 : extract_segment (some s)
      (create_utc_datetime (UTC.date ft) p.hora_dt p.shift_seconds).1.micros
      p.duration p.channel = .ok seg) :
    (preview st).2 = none ∧
    (preview st).1.entry_shift = some 0 ∧
    (preview st).1.entry_hora =
      format_time_with_ms
        (create_utc_datetime (UTC.date ft) p.hora_dt p.shift_seconds).2 ∧
    (preview st).1.centering_active = false := by
  have hred : preview st =
      (centeringDeactivate
        { st with
          entry_hora := format_time_with_ms
            (create_utc_datetime (UTC.date ft) p.hora_dt p.shift_seconds).2,
          entry_shift := some 0,
          lbl_centro := "Centro: ".data ++
            format_time_with_ms (PyDatetime.ofMicros
              ((create_utc_datetime (UTC.date ft) p.hora_dt
                p.shift_seconds).1.micros + p.duration / 2)) },
        none) := by
    simp [preview, h1, h2, h3, h4, h5]
  rw [hred]
  refine ⟨rfl, ?_, ?_, ?_⟩
  · rw [centeringDeactivate, centeringUpdateUI_shift]
  · rw [centeringDeactivate, centeringUpdateUI_hora]
  · rw [centeringDeactivate, centeringUpdateUI_active]

/-- Witness for `preview_success_spec`: on `demoState` the preview succeeds
and resets the shift entry to 0. -/

theorem preview_success_spec_witness :
    (preview demoState).2 = none ∧
    (preview demoState).1.entry_shift = some 0 ∧
    (preview demoState).1.centering_active = false := by
  have h := preview_success_spec demoState demoStream ⟨0⟩
    ⟨⟨0, 0, 0, 0⟩, 10000000, 0, "ENT".data⟩ demoStream
    (by rfl) (by rfl) (by rfl) (by rfl) (by rfl)
  exact ⟨h.1, h.2.1, h.2.2.2⟩

/-- Witness for `preview_failure_spec`: with nothing loaded the preview
shows a dialog and leaves the (empty) state unchanged. -/

theorem preview_failure_spec_witness :
    (preview ⟨none, none, none, [], none, none, [], false, [], [], []⟩).1 =
      ⟨none, none, none, [], none, none, [], false, [], [], []⟩ :=
  (preview_failure_spec ⟨none, none, none, [], none, none, [], false, [], [], []⟩
    (fun _ hs _ => Option.noConfusion hs)).1 (by rfl)

theorem visualizar_total (env : CliEnv) :
    visualizar_evento env = .exitCode 1 ∨
    (env.tkinter_ok = true ∧ env.env_file_found = true ∧
     env.project_root ≠ [] ∧
     ∃ a0 nombre ts dstr inicio dur,
       env.argv = [a0, nombre, ts, dstr] ∧
       env.isfile (rutaMseed env.project_root nombre) = true ∧
       env.read_ok = true ∧
       env.utc_parse ts = some inicio ∧
       pyFloatMicros dstr = some dur ∧
       streamSlice inicio (inicio + dur) env.stream ≠ [] ∧
       visualizar_evento env =
         .plot (streamSlice inicio (inicio + dur) env.stream)) := by
  cases h1 : env.tkinter_ok with
  | false => exact Or.inl (by simp [visualizar_evento, h1])
  | true =>
  cases h2 : env.env_file_found with
  | false => exact Or.inl (by simp [visualizar_evento, h1, h2])
  | true =>
  by_cases h3 : env.project_root = []
  · exact Or.inl (by simp [visualizar_evento, h1, h2, h3])
  rcases hargv : env.argv with _ | ⟨a0, _ | ⟨a1, _ | ⟨a2, _ | ⟨a3, rest⟩⟩⟩⟩
  · exact Or.inl (by simp [visualizar_evento, h1, h2, h3, hargv])
  · exact Or.inl (by simp [visualizar_evento, h1, h2, h3, hargv])
  · exact Or.inl (by simp [visualizar_evento, h1, h2, h3, hargv])
  · exact Or.inl (by simp [visualizar_evento, h1, h2, h3, hargv])
  cases rest with
  | cons a4 rest2 =>
    exact Or.inl (by simp [visualizar_evento, h1, h2, h3, hargv])
  | nil =>
  cases h5 : pyFloatMicros a3 with
  | none =>
    exact Or.inl (by simp [visualizar_evento, h1, h2, h3, hargv, h5])
  | some dur =>
  cases h6 : env.isfile (rutaMseed env.project_root a1) with
  | false =>
    exact Or.inl (by simp [visualizar_evento, h1, h2, h3, hargv, h5, h6])
  | true =>
  cases h7 : env.read_ok with
  | false =>
    exact Or.inl
      (by simp [visualizar_evento, h1, h2, h3, hargv, h5, h6, h7])
  | true =>
  cases h8 : env.utc_parse a2 with
  | none =>
    exact Or.inl
      (by simp [visualizar_evento, h1, h2, h3, hargv, h5, h6, h7, h8])
  | some inicio =>
  by_cases h9 : streamSlice inicio (inicio + dur) env.stream = []
  · exact Or.inl
      (by simp [visualizar_evento, h1, h2, h3, hargv, h5, h6, h7, h8,
        List.isEmpty_iff, h9])
  · refine Or.inr ⟨rfl, rfl, h3, a0, a1, a2, a3, inicio, dur, rfl, h6, rfl,
      h8, h5, h9, ?_⟩
    simp [visualizar_evento, h1, h2, h3, hargv, h5, h6, h7, h8,
      List.isEmpty_iff, h9]

/-- C10: `visualizar_evento` exits with status 1, without plotting, in
every failure case — missing `.env`, falsy `PROJECT_LOCAL_ROOT`, an
argument count other than 3 user arguments, a nonexistent mseed path, an
exception while reading the file or parsing the start timestamp, or an
empty sliced stream — and reaches the plot call only when all of these
checks pass, with the plotted stream being exactly the nonempty slice of
the read stream to `[inicio, inicio + duracion]`. -/

theorem visualizar_evento_spec (env : CliEnv) :
    (env.env_file_found = false → visualizar_evento env = .exitCode 1) ∧
    (env.project_root = [] → visualizar_evento env = .exitCode 1) ∧
    (env.argv.length ≠ 4 → visualizar_evento env = .exitCode 1) ∧
    (∀ a0 nombre ts dstr, env.argv = [a0, nombre, ts, dstr] →
      env.isfile (rutaMseed env.project_root nombre) = false →
      visualizar_evento env = .exitCode 1) ∧
    (env.read_ok = false → visualizar_evento env = .exitCode 1) ∧
    (∀ a0 nombre ts dstr, env.argv = [a0, nombre, ts, dstr] →
      env.utc_parse ts = none → visualizar_evento env = .exitCode 1) ∧
    (∀ a0 nombre ts dstr inicio dur, env.argv = [a0, nombre, ts, dstr] →
      env.utc_parse ts = some inicio → pyFloatMicros dstr = some dur →
      streamSlice inicio (inicio + dur) env.stream = [] →
      visualizar_evento env = .exitCode 1) ∧
    (∀ s, visualizar_evento env = .plot s →
      env.tkinter_ok = true ∧ env.env_file_found = true ∧
      env.project_root ≠ [] ∧
      ∃ a0 nombre ts dstr inicio dur,
        env.argv = [a0, nombre, ts, dstr] ∧
        env.isfile (rutaMseed env.project_root nombre) = true ∧
        env.read_ok = true ∧
        env.utc_parse ts = some inicio ∧
        pyFloatMicros dstr = some dur ∧
        s = streamSlice inicio (inicio + dur) env.stream ∧ s ≠ []) := by
  rcases visualizar_total env with hexit |
    ⟨c1, c2, c3, a0, nombre, ts, dstr, inicio, dur, cargv, cfile, cread,
      cparse, cfloat, cne, hplot⟩
  · refine ⟨fun _ => hexit, fun _ => hexit, fun _ => hexit,
      fun _ _ _ _ _ _ => hexit, fun _ => hexit, fun _ _ _ _ _ _ => hexit,
      fun _ _ _ _ _ _ _ _ _ _ => hexit, ?_⟩
    intro s hs
    rw [hexit] at hs
    exact CliOutcome.noConfusion hs
  · refine ⟨?_, ?_, ?_, ?_, ?_, ?_, ?_, ?_⟩
    · intro hfail; rw [hfail] at c2; exact Bool.noConfusion c2
    · intro hfail; exact absurd hfail c3
    · intro hfail; rw [cargv] at hfail; simp at hfail
    · intro b0 nom2 ts2 d2 hargv2 hfail
      rw [cargv] at hargv2
      injection hargv2 with e0 hargv2
      injection hargv2 with e1 hargv2
      rw [← e1] at hfail
      rw [hfail] at cfile
      exact Bool.noConfusion cfile
    · intro hfail; rw [hfail] at cread; exact Bool.noConfusion cread
    · intro b0 nom2 ts2 d2 hargv2 hfail
      rw [cargv] at hargv2
      injection hargv2 with e0 hargv2
      injection hargv2 with e1 hargv2
      injection hargv2 with e2 hargv2
      rw [← e2] at hfail
      rw [hfail] at cparse
      exact Option.noConfusion cparse
    · intro b0 nom2 ts2 d2 ini2 dur2 hargv2 hp2 hf2 hsl2
      rw [cargv] at hargv2
      injection hargv2 with e0 hargv2
      injection hargv2 with e1 hargv2
      injection hargv2 with e2 hargv2
      injection hargv2 with e3 hargv2
      rw [← e2] at hp2
      rw [← e3] at hf2
      rw [cparse] at hp2
      injection hp2 with hp2
      rw [cfloat] at hf2
      injection hf2 with hf2
      rw [← hp2, ← hf2] at hsl2
      exact absurd hsl2 cne
    · intro s hs
      rw [hplot] at hs
      injection hs with hs
      exact ⟨c1, c2, c3, a0, nombre, ts, dstr, inicio, dur, cargv, cfile,
        cread, cparse, cfloat, hs.symm, hs.symm ▸ cne⟩

/-- Witness for `visualizar_evento_spec`: with the `.env` file missing the
script exits with status 1. -/

theorem visualizar_evento_spec_witness :
    visualizar_evento demoCliEnv = .exitCode 1 :=
  (visualizar_evento_spec demoCliEnv).1 (by rfl)
